import Mathlib

/-!
Shallow embedding of the heat-pump controller in `moat/dev/heat/solvis.py`.

The main control loop `Data.run_pump` is an infinite `while True:` loop; we
model one iteration of that loop as a pure step function `iterStep` over an
explicit record of the loop's local variables and of the persisted `self.state`
fields it reads and writes.  Temperatures, flow rates, PWM fractions and
timestamps are rationals (the Python floats are used only for exact-enough
comparisons in the claims we check).  The five PID controllers come from the
external `moat.lib.pid` library, which the specification places out of scope;
their evaluation results enter the step function as oracle parameters
(`PidOut`), so every theorem holds for all possible loop outputs.
-/

namespace Solvis

/-- The `Run` enumeration of `solvis.py` (an `IntEnum`, values 0..8). -/
inductive Run where
  | off
  | wait_time
  | wait_flow
  | flow
  | wait_power
  | temp
  | run
  | ice
  | down
deriving DecidableEq, Repr, Fintype

/-- Numeric value of each `Run` member, as assigned by `IntEnum`/`auto()`. -/
def Run.val : Run → Nat
  | .off => 0
  | .wait_time => 1
  | .wait_flow => 2
  | .flow => 3
  | .wait_power => 4
  | .temp => 5
  | .run => 6
  | .ice => 7
  | .down => 8

/-- The transition-legality check at the top of `run_pump`'s loop body
(`solvis.py` lines 359-374): the chain of `if orun == run: pass / elif ...`
branches ending in `raise ValueError`.  Returns `true` when no error is
raised. -/
def checkTransition : Option Run → Run → Bool
  | none, _ => true
  | some o, r =>
    if o = r then true
    else if r = Run.off then true
    else if r = Run.ice then true
    else if r.val = o.val + 1 then true
    else if o ≠ Run.off ∧ r = Run.down then true
    else if o = Run.down ∧ r = Run.off then true
    else false

/-- Membership in the tuple `(Run.off, Run.wait_time, Run.wait_flow,
Run.wait_power, Run.down)` tested by the shutdown redirect
(`solvis.py` lines 379-381); `orun` may still be `None` there. -/
def inShutdownSet : Option Run → Bool
  | some Run.off => true
  | some Run.wait_time => true
  | some Run.wait_flow => true
  | some Run.wait_power => true
  | some Run.down => true
  | _ => false

/-- The shutdown redirect (`solvis.py` lines 378-381): a requested `off` is
re-targeted to `down` unless the previous state already was one of the
passive/shutdown states. -/
def redirectOff (orun : Option Run) (r : Run) : Run :=
  if r = Run.off ∧ inShutdownSet orun = false then Run.down else r

/-- The configuration values of `CFG` that the control loop reads
(`cfg.adj.*`, `cfg.lim.*`, `cfg.misc.*`, `cfg.setting.heat.mode.delay`). -/
structure Config where
  adj_water : ℚ
  adj_heat : ℚ
  adj_more : ℚ
  adj_max : ℚ
  adj_low_water : ℚ
  adj_low_heat : ℚ
  adj_low_buffer : ℚ
  lim_flow_min : ℚ
  lim_power_min : ℚ
  lim_power_off : ℚ
  lim_power_time : ℚ
  misc_init_timeout : ℚ
  misc_de_ice : ℚ
  misc_stop_flow : ℚ
  misc_stop_delta : ℚ
  misc_start_delay : ℚ
  misc_start_flow_init_rate : ℚ
  misc_start_flow_init_pwm : ℚ
  misc_start_flow_power_rate : ℚ
  misc_start_flow_power_pwm : ℚ
  misc_start_flow_run : ℚ
  misc_start_power : ℚ
  misc_start_delta : ℚ
  misc_min_power : ℚ
  heat_mode_delay : ℚ

/-- The default configuration embedded in `solvis.py`'s `CFG` string
(non-integer values written with `mkRat` so that they evaluate inside the
kernel: `mkRat 3 2 = 1.5`, `mkRat 4 100 = .04`, and so on). -/
def cfg0 : Config where
  adj_water := 3
  adj_heat := mkRat 3 2
  adj_more := 2
  adj_max := 61
  adj_low_water := 1
  adj_low_heat := mkRat 1 2
  adj_low_buffer := -2
  lim_flow_min := 5
  lim_power_min := mkRat 4 100
  lim_power_off := mkRat 2 10
  lim_power_time := 300
  misc_init_timeout := 5
  misc_de_ice := 17
  misc_stop_flow := 10
  misc_stop_delta := 3
  misc_start_delay := 330
  misc_start_flow_init_rate := 6
  misc_start_flow_init_pwm := mkRat 1 4
  misc_start_flow_power_rate := 15
  misc_start_flow_power_pwm := mkRat 2 5
  misc_start_flow_run := 15
  misc_start_power := mkRat 1 10
  misc_start_delta := 2
  misc_min_power := mkRat 9 10
  heat_mode_delay := 30

/-- One iteration's view of the live values (the `self.t_out`, `self.tb_heat`,
... attributes set by the KV watchers), the current monotonic time, and
whether `self.m_errors` is non-empty. -/
structure Sensors where
  time : ℚ
  t_in : ℚ
  t_out : ℚ
  r_flow : ℚ
  m_ice : Bool
  tb_water : ℚ
  tb_heat : ℚ
  tb_mid : ℚ
  tb_low : ℚ
  m_power : ℚ
  c_water : ℚ
  c_heat : ℚ
  cm_main : Bool
  cm_heat : Bool
  errs : Bool

/-- Oracle values for the five external PID controllers: what
`self.pid_load(...)`, `self.pid_buffer(...)`, `self.pid_limit(...)`,
`self.pid_pump(...)` and `self.pid_flow(...)` would return when evaluated in
this iteration. -/
structure PidOut where
  load : ℚ
  buffer : ℚ
  limit : ℚ
  pump : ℚ
  flow : ℚ

/-- The persisted `self.state.heat_ok` field: Python `False`, a timestamp, or
`True`. -/
inductive HeatOk where
  | no
  | pending (t0 : ℚ)
  | yes
deriving DecidableEq

/-- Local variables of `run_pump` plus the `self.state` entries the loop
reads/writes.  `orun`/`run` are the previous iteration's entered state and the
state requested for this iteration; `mIce`, `cmMain`, `tNoPower`, `heatOff`
are the loop locals `m_ice`, `cm_main`, `t_no_power`, `heat_off` (the
`heat_off = None` case behaves exactly like `False` everywhere it is read, so
it is a `Bool`); `forceOn` is `self.force_on`. -/
structure LoopState where
  orun : Option Run
  run : Run
  mIce : Bool
  cmMain : Bool
  tNoPower : Option ℚ
  heatOff : Bool
  forceOn : Bool
  tLoad : Option ℚ
  tRun : Option ℚ
  heatOk : HeatOk
  lastPwm : Option ℚ
  loadLast : Option ℚ

/-- The `raise ValueError(f"Cannot go from {orun.name} to {run.name}")` of the
transition check, carrying the offending pair. -/
inductive StepErr where
  | badTransition (orun : Option Run) (r : Run)
deriving DecidableEq

/-- Python truthiness of `self.state.last_pwm` (`None` and `0` are falsy). -/
def lastPwmTruthy : Option ℚ → Bool
  | none => false
  | some x => decide (x ≠ 0)

/-- The power fraction actually written to `cfg.cmd.power` by
`Data.set_load(p)`: `0` (plus heat-pump mode off) when `p` is below
`cfg.lim.power.min`, else `min(p, 1)` (plus mode on). -/
def setLoadPower (cfg : Config) (p : ℚ) : ℚ :=
  if p < cfg.lim_power_min then 0 else min p 1

/-- Modelled from the spec: `val2pos` is imported from the external
`moat.util` library (not part of this repository's sources); per the spec it
maps a value between a low and a high reference point to a fractional
position, clamped to `[0, 1]` (the call site passes `clamp=True`). -/
def val2pos (low v high : ℚ) : ℚ :=
  max 0 (min 1 ((v - low) / (high - low)))

/-- Modelled from the spec: `pos2val` is imported from the external
`moat.util` library (not part of this repository's sources); per the spec it
maps a fractional position back onto the range `[low, high]`, clamping the
position to `[0, 1]`. -/
def pos2val (low f high : ℚ) : ℚ :=
  low + max 0 (min 1 f) * (high - low)

/-- The derived temperatures computed each iteration (`solvis.py` lines
514-552).  The `water_ok` flag is initialized `True` and the only code that
could change it is the dead `if True: pass / elif ...` chain, so it stays
`True`; the `t_set` computed under `if cm_heat:` is never read afterwards and
is omitted. -/
structure Temps where
  t_cur : ℚ
  t_nom : ℚ
  t_low : ℚ
  t_adj : ℚ
  t_limit : ℚ
  t_pump : ℚ
  t_load : ℚ
  t_buffer : ℚ
  t_set_on : ℚ
  t_set_off : ℚ

def calcTemps (cfg : Config) (s : Sensors) : Temps :=
  let tw_nom := s.c_water
  let tw_low := tw_nom + cfg.adj_low_water
  let tw_adj := tw_nom + cfg.adj_water
  let th_nom := s.c_heat
  let th_low := th_nom + cfg.adj_low_heat
  let th_adj := th_nom + cfg.adj_heat
  let t_nom := if s.cm_heat then max th_nom tw_nom else tw_nom
  let t_low := if s.cm_heat then max th_low tw_low else tw_low
  let t_adj := if s.cm_heat then max th_adj tw_adj else tw_adj
  let t_cur := if s.cm_heat then s.tb_heat else s.tb_water
  let f := val2pos t_nom t_cur t_adj
  let t_limit := min cfg.adj_max (t_adj + cfg.adj_more)
  { t_cur := t_cur
    t_nom := t_nom
    t_low := t_low
    t_adj := t_adj
    t_limit := t_limit
    t_pump := pos2val t_low f t_limit
    t_load := t_adj + cfg.adj_more
    t_buffer := t_low + cfg.adj_low_buffer
    t_set_on := (t_low + t_adj) / 2
    t_set_off := t_nom }

/-- Commands emitted during one loop iteration: the arguments of the
`set_load` calls, of the `set_flow_pwm` calls (in order), and the
heating-path enable/disable command, when one is issued. -/
structure Effects where
  loads : List ℚ
  flows : List ℚ
  heatCmd : Option Bool

/-- Results of the "Leaving a state" / "Entering a state" blocks
(`solvis.py` lines 388-461).  When `orun = some entered` (no state change)
nothing happens; otherwise the entered state's entry actions run.  The
PID `setpoint`/`reset`/`move_to` calls and the raw mode/power feed writes are
effects on external objects and are not modelled; `set_load`/`set_flow_pwm`
calls are recorded because they also update `self.state`. -/
structure EntryRes where
  heatOff : Bool
  lastPwm : Option ℚ
  tRun : Option ℚ
  loadLast : Option ℚ
  loads : List ℚ
  flows : List ℚ

def entryActions (cfg : Config) (s : Sensors) (orun : Option Run) (entered : Run)
    (heatOff : Bool) (lastPwm : Option ℚ) (tRun : Option ℚ) (loadLast : Option ℚ) :
    EntryRes :=
  let keep : EntryRes :=
    { heatOff := heatOff, lastPwm := lastPwm, tRun := tRun, loadLast := loadLast,
      loads := [], flows := [] }
  if orun = some entered then keep
  else
    -- the startup special case of the "Leaving a state" block: with `orun`
    -- still unset and the restored state `run`, re-send the saved load
    let startLoads : List ℚ :=
      match orun, loadLast with
      | none, some l => [l]
      | _, _ => []
    match entered with
    | Run.off =>
        { keep with heatOff := false, lastPwm := none, loads := [0], flows := [0] }
    | Run.wait_time =>
        { keep with heatOff := false, lastPwm := some 0, loads := [0], flows := [0] }
    | Run.wait_flow =>
        { keep with
          heatOff := true
          lastPwm := some cfg.misc_start_flow_init_pwm
          flows := [cfg.misc_start_flow_init_pwm] }
    | Run.flow => { keep with heatOff := false }
    | Run.wait_power =>
        { keep with heatOff := false, loads := [cfg.misc_start_power] }
    | Run.temp =>
        { keep with
          heatOff := false
          lastPwm := some cfg.misc_start_flow_power_pwm
          flows := [cfg.misc_start_flow_power_pwm] }
    | Run.run =>
        { keep with
          heatOff := false
          tRun := some (tRun.getD s.time)
          loadLast := none
          loads := startLoads }
    | Run.ice => { keep with heatOff := true }
    | Run.down => { keep with heatOff := true }

/-- Result of the per-state "State handling" block (`solvis.py` lines
572-636): `cont = some r` models `run = r; continue`. -/
structure SHRes where
  cont : Option Run
  tLoad : Option ℚ
  forceOn : Bool
  lastPwm : Option ℚ
  flows : List ℚ

def stateHandling (cfg : Config) (s : Sensors) (pid : PidOut) (T : Temps)
    (entered : Run) (cmMain : Bool) (tLoad : Option ℚ) (forceOn : Bool)
    (lastPwm : Option ℚ) : SHRes :=
  let keep : SHRes :=
    { cont := none, tLoad := tLoad, forceOn := forceOn, lastPwm := lastPwm,
      flows := [] }
  -- `handle_flow`: drives the pump with the larger of the flow-loop and
  -- pump-loop outputs and records it in `state.last_pwm`
  let hf := max pid.flow pid.pump
  match entered with
  | Run.off =>
      if ¬cmMain then keep
      else if s.errs then keep
      else if forceOn ∨ T.t_cur < T.t_set_on then
        { keep with cont := some Run.wait_time, forceOn := false }
      else keep
  | Run.wait_time =>
      if tLoad.getD 0 + cfg.misc_start_delay < s.time then
        { keep with cont := some Run.wait_flow }
      else keep
  | Run.wait_flow =>
      if s.r_flow ≠ 0 then { keep with cont := some Run.flow } else keep
  | Run.flow =>
      if s.r_flow ≥ cfg.misc_start_flow_init_rate * 3 / 4 then
        { keep with cont := some Run.wait_power }
      else { keep with lastPwm := some pid.flow, flows := [pid.flow] }
  | Run.wait_power =>
      if s.m_power ≥ cfg.misc_min_power then { keep with cont := some Run.temp }
      else { keep with lastPwm := some pid.flow, flows := [pid.flow] }
  | Run.temp =>
      if s.t_out - s.t_in > cfg.misc_start_delta then
        { keep with tLoad := some s.time, cont := some Run.run }
      else
        { keep with tLoad := some s.time, lastPwm := some hf, flows := [hf] }
  | Run.run => { keep with tLoad := some s.time }
  | Run.ice =>
      if ¬s.m_ice then
        { keep with lastPwm := some hf, flows := [hf], cont := some Run.down }
      else { keep with lastPwm := some hf, flows := [hf] }
  | Run.down =>
      if s.t_out - s.t_in < cfg.misc_stop_delta then
        { keep with lastPwm := some hf, flows := [hf], cont := some Run.off }
      else { keep with lastPwm := some hf, flows := [hf] }

/-- The heating-enable condition of `solvis.py` line 639:
`(not heat_off) and min(tb_heat, t_out if state.last_pwm else 9999) >= c_heat`. -/
def heatCond (heatOff : Bool) (lastPwm : Option ℚ) (tb_heat t_out c_heat : ℚ) : Bool :=
  !heatOff && decide (min tb_heat (if lastPwmTruthy lastPwm then t_out else 9999) ≥ c_heat)

/-- Result of the heating-path hysteresis block: the new `state.heat_ok` and
the enable/disable command written to the heating mode path (or pin), if any. -/
structure HCRes where
  heatOk : HeatOk
  cmd : Option Bool

/-- The heating-path hysteresis block (`solvis.py` lines 639-671).  Note the
guard `run != Run.run` on the disable branch: while in the `run` state the
heating path is deliberately not turned off (comment in the source: danger of
overloading the heat pump). -/
def heatControl (cfg : Config) (entered : Run) (heatOff : Bool) (lastPwm : Option ℚ)
    (tb_heat t_out c_heat time : ℚ) (h : HeatOk) : HCRes :=
  if heatCond heatOff lastPwm tb_heat t_out c_heat = false then
    if entered ≠ Run.run ∧ h ≠ HeatOk.no then { heatOk := HeatOk.no, cmd := some false }
    else { heatOk := h, cmd := none }
  else
    match h with
    | HeatOk.yes => { heatOk := HeatOk.yes, cmd := none }
    | HeatOk.no => { heatOk := HeatOk.pending time, cmd := none }
    | HeatOk.pending t0 =>
        if time - t0 > cfg.heat_mode_delay then { heatOk := HeatOk.yes, cmd := some true }
        else { heatOk := HeatOk.pending t0, cmd := none }

/-- Result of the RUNNING-ONLY tail of the loop body.  `stall = true` models
the `NO POWER USE` branch (`run = Run.off; continue` without any commands). -/
structure RunOp where
  stall : Bool
  tNoPower : Option ℚ
  flowPwm : Option ℚ
  loadReq : Option ℚ
  powerCmd : Option ℚ
  shutdown : Bool

/-- The RUNNING-ONLY part of the loop body (`solvis.py` lines 677-760):
no-power stall detection, the over-temperature emergency branch for the pump
PWM, the `min` arbitration of the three load loops, the `set_load` /
`set_flow_pwm` commands, and the end-of-charge shutdown test.  The COP
bookkeeping (lines 739-746) only feeds a published metric and is not
modelled. -/
def runOperation (cfg : Config) (s : Sensors) (pid : PidOut) (T : Temps)
    (tNoPower : Option ℚ) (tRun : ℚ) : RunOp :=
  let act (tnp : Option ℚ) : RunOp :=
    let l_pump := if s.t_out > cfg.adj_max then 1 else pid.pump
    let lim := min pid.load (min pid.buffer pid.limit)
    { stall := false
      tNoPower := tnp
      flowPwm := some l_pump
      loadReq := some lim
      powerCmd := some (setLoadPower cfg lim)
      shutdown :=
        decide (T.t_cur ≥ T.t_adj) &&
          (decide (s.time - tRun > cfg.lim_power_time ∧ s.tb_mid ≥ T.t_set_off) ||
            decide (s.tb_low ≥ T.t_low)) }
  if s.m_power < cfg.misc_min_power then
    match tNoPower with
    | none => act (some s.time)
    | some t0 =>
        if s.time - t0 > 20 then
          { stall := true, tNoPower := some t0, flowPwm := none, loadReq := none,
            powerCmd := none, shutdown := false }
        else act (some t0)
  else act none

/-- Result of one loop iteration: `entered` is the state this iteration
actually entered (after the shutdown redirect), `st` the loop state handed to
the next iteration (`st.run` is the state the next iteration will check and
enter), `eff` the commands issued. -/
structure StepRes where
  entered : Run
  st : LoopState
  eff : Effects

/-- One iteration of `run_pump`'s main loop (`solvis.py` lines 353-760):
transition check, shutdown redirect, entry actions, ice pre-emption, main
switch / fault forcing, per-state handling, heating hysteresis, and the
running-only control cascade. -/
def iterStep (cfg : Config) (s : Sensors) (pid : PidOut) (ls : LoopState) :
    Except StepErr StepRes :=
  if checkTransition ls.orun ls.run = false then
    Except.error (StepErr.badTransition ls.orun ls.run)
  else
    let entered := redirectOff ls.orun ls.run
    let e := entryActions cfg s ls.orun entered ls.heatOff ls.lastPwm ls.tRun ls.loadLast
    let base : LoopState :=
      { ls with
        orun := some entered
        run := entered
        heatOff := e.heatOff
        lastPwm := e.lastPwm
        tRun := e.tRun
        loadLast := e.loadLast }
    if s.m_ice ∧ ls.mIce = false then
      -- "*** ICE ***": pre-empt to the ice state
      Except.ok { entered := entered
                  st := { base with run := Run.ice, mIce := true }
                  eff := { loads := e.loads, flows := e.flows, heatCmd := none } }
    else
      let base := { base with mIce := s.m_ice }
      if (s.cm_main = false ∨ s.errs = true) ∧ ls.cmMain = true then
        -- main switch off or active fault: force `off`
        Except.ok { entered := entered
                    st := { base with run := Run.off, cmMain := false }
                    eff := { loads := e.loads, flows := e.flows, heatCmd := none } }
      else
        let base := { base with cmMain := s.cm_main && !s.errs }
        let T := calcTemps cfg s
        let sh := stateHandling cfg s pid T entered base.cmMain base.tLoad ls.forceOn base.lastPwm
        let base :=
          { base with tLoad := sh.tLoad, forceOn := sh.forceOn, lastPwm := sh.lastPwm }
        match sh.cont with
        | some r2 =>
            Except.ok { entered := entered
                        st := { base with run := r2 }
                        eff := { loads := e.loads, flows := e.flows ++ sh.flows,
                                 heatCmd := none } }
        | none =>
            let hc := heatControl cfg entered base.heatOff base.lastPwm
              s.tb_heat s.t_out s.c_heat s.time base.heatOk
            let base := { base with heatOk := hc.heatOk }
            if entered ≠ Run.run then
              Except.ok { entered := entered
                          st := base
                          eff := { loads := e.loads, flows := e.flows ++ sh.flows,
                                   heatCmd := hc.cmd } }
            else
              let ro := runOperation cfg s pid T base.tNoPower (base.tRun.getD 0)
              if ro.stall then
                Except.ok { entered := entered
                            st := { base with run := Run.off, tNoPower := ro.tNoPower }
                            eff := { loads := e.loads, flows := e.flows ++ sh.flows,
                                     heatCmd := hc.cmd } }
              else
                Except.ok { entered := entered
                            st := { base with
                              run := if ro.shutdown then Run.off else entered
                              tNoPower := ro.tNoPower
                              lastPwm :=
                                match ro.flowPwm with
                                | some x => some x
                                | none => base.lastPwm
                              loadLast := ro.loadReq }
                            eff := { loads := e.loads ++ ro.loadReq.toList
                                     flows := e.flows ++ sh.flows ++ ro.flowPwm.toList
                                     heatCmd := hc.cmd } }

/-- One fault-feed event as consumed by `Data.err_mon` (`solvis.py` lines
798-816): paths are modelled as lists of path elements, the active-fault
dictionary `self.m_errors` as an association list with unique keys.  A truthy
value is stored under `P("pump") + path` unless it is the well-known
communication-failure code `30055` or arrives on the pump's overall-status
path `:1` (both of those are only printed); a falsy value removes the entry. -/
def errRemove (errs : List (List String × Int)) (p : List String) :
    List (List String × Int) :=
  match errs with
  | [] => []
  | kv :: rest => if kv.1 = p then errRemove rest p else kv :: errRemove rest p

def errUpdate (errs : List (List String × Int)) (path : List String) (v : Int) :
    List (List String × Int) :=
  let err := "pump" :: path
  if v ≠ 0 then
    if v = 30055 then errs
    else if path = [":1"] then errs
    else (err, v) :: errRemove errs err
  else errRemove errs err

/-- Lookup in the active-fault association list (`self.m_errors[key]`). -/
def errLookup (errs : List (List String × Int)) (p : List String) : Option Int :=
  match errs with
  | [] => none
  | kv :: rest => if kv.1 = p then some kv.2 else errLookup rest p

/-- A message delivered on one KV subscription opened by `Data._kv`:
an `uptodate` state marker, a value, or anything else (ignored with a
warning). -/
inductive Msg where
  | uptodate
  | value (v : ℚ)
  | other

/-- Per-subscription bookkeeping of `Data._kv` for one variable `v`:
`want` is "`v` is still in `self._want`", `miss` the local `miss` flag,
`hasv` is `hasattr(self, v)` (set by `self.has` on the first value). -/
structure KvState where
  want : Bool
  miss : Bool
  hasv : Bool

/-- How `Data._kv` processes one message (`solvis.py` lines 850-869). -/
def kvStep (st : KvState) (m : Msg) : KvState :=
  match m with
  | Msg.uptodate =>
      if st.hasv then { st with miss := false, want := false }
      else { st with miss := true }
  | Msg.value _ => { want := st.want && !st.miss, miss := false, hasv := true }
  | Msg.other => st

/-- Whether variable `v` is still in `self._want` after its subscription has
delivered `msgs` (each `_kv` starts by adding its variable to `_want`). -/
def kvWant (msgs : List Msg) : Bool :=
  (msgs.foldl kvStep { want := true, miss := false, hasv := false }).want

def isValueMsg : Msg → Bool
  | Msg.value _ => true
  | _ => false

def isUptodateMsg : Msg → Bool
  | Msg.uptodate => true
  | _ => false

/-- `Data.run_init` with `Data.all_done` (`solvis.py` lines 830-844 and
902-928): given, for each required quantity, the finite sequence of feed
messages that arrived before the init timeout expires, `all_done` returns
only once `self._want` is empty; otherwise the `anyio.fail_after` timeout
fires and `run_init` raises `ValueError("missing:" + repr(self._want))`,
carrying exactly the still-missing names. -/
def runInitModel (feeds : List (String × List Msg)) : Except (List String) Unit :=
  let missing := (feeds.filter (fun f => kvWant f.2)).map (fun f => f.1)
  if missing.isEmpty then Except.ok () else Except.error missing

/-- Input of one heating-hysteresis evaluation, for reasoning about the
hysteresis across consecutive loop iterations. -/
structure HCIn where
  entered : Run
  heatOff : Bool
  lastPwm : Option ℚ
  tb_heat : ℚ
  t_out : ℚ
  c_heat : ℚ
  time : ℚ

def hcCond (x : HCIn) : Bool :=
  heatCond x.heatOff x.lastPwm x.tb_heat x.t_out x.c_heat

def hcStep (cfg : Config) (h : HeatOk) (x : HCIn) : HeatOk :=
  (heatControl cfg x.entered x.heatOff x.lastPwm x.tb_heat x.t_out x.c_heat x.time h).heatOk

/-- The `state.heat_ok` value after a sequence of loop iterations whose
heating-hysteresis inputs are `l`. -/
def hcFold (cfg : Config) (h0 : HeatOk) (l : List HCIn) : HeatOk :=
  l.foldl (hcStep cfg) h0

/-! ## Concrete fixtures used by witnesses and counterexamples -/

/-- All-zero PID oracle. -/
def pid0 : PidOut :=
  { load := 0, buffer := 0, limit := 0, pump := 0, flow := 0 }

/-- A neutral sensor snapshot. -/
def sens0 : Sensors :=
  { time := 0, t_in := 0, t_out := 0, r_flow := 0, m_ice := false, tb_water := 0
    tb_heat := 0, tb_mid := 0, tb_low := 0, m_power := 0, c_water := 0, c_heat := 0
    cm_main := false, cm_heat := false, errs := false }

/-- A neutral loop state. -/
def ls0 : LoopState :=
  { orun := none, run := Run.off, mIce := false, cmMain := false, tNoPower := none
    heatOff := false, forceOn := false, tLoad := none, tRun := none
    heatOk := HeatOk.no, lastPwm := none, loadLast := none }

/-! ## Helper lemmas -/

/-- The legality check of the source accepts exactly the claimed transition
table: same state, startup with `orun` unset, target `off`, target `ice`,
advance by exactly one step, any non-`off` state to `down`, and `down` to
`off`. -/
lemma checkTransition_iff (orun : Option Run) (r : Run) :
    checkTransition orun r = true ↔
      (orun = some r ∨ orun = none ∨ r = Run.off ∨ r = Run.ice ∨
        (∃ o, orun = some o ∧ r.val = o.val + 1) ∨
        (∃ o, orun = some o ∧ o ≠ Run.off ∧ r = Run.down) ∨
        (orun = some Run.down ∧ r = Run.off)) := by
  revert orun r
  decide

/-! ## C3 -/

/-- C3: any `(orun, run)` pair outside the legal transition table (same
state; startup with `orun` unset; target `off`; target `ice`; advance by
exactly one step; any non-`off` state to `down`; `down` to `off`) makes the
loop iteration raise `ValueError` — it never produces a successor state, so
the transition is never silently re-mapped. -/
theorem C3_illegal_transition_raises (cfg : Config) (s : Sensors) (pid : PidOut)
    (ls : LoopState)
    (h : ¬(ls.orun = some ls.run ∨ ls.orun = none ∨ ls.run = Run.off ∨
        ls.run = Run.ice ∨
        (∃ o, ls.orun = some o ∧ ls.run.val = o.val + 1) ∨
        (∃ o, ls.orun = some o ∧ o ≠ Run.off ∧ ls.run = Run.down) ∨
        (ls.orun = some Run.down ∧ ls.run = Run.off))) :
    iterStep cfg s pid ls = Except.error (StepErr.badTransition ls.orun ls.run) := by
  have hc : checkTransition ls.orun ls.run = false := by
    cases hct : checkTransition ls.orun ls.run
    · rfl
    · exact absurd ((checkTransition_iff _ _).mp hct) h
  unfold iterStep
  simp [hc]

/-- Witness for C3: `run → flow` is not in the table and raises. -/
theorem C3_witness :
    iterStep cfg0 sens0 pid0
        { ls0 with orun := some Run.run, run := Run.flow } =
      Except.error (StepErr.badTransition (some Run.run) Run.flow) :=
  C3_illegal_transition_raises cfg0 sens0 pid0
    { ls0 with orun := some Run.run, run := Run.flow } (by decide)

/-! ## C9 -/

/-- C9: the value-to-position and position-to-value mappings used to derive
the pump outlet target are exact inverses over the clamped domain: for
`low < high` and `f ∈ [0,1]`, `val2pos low (pos2val low f high) high = f`
(exactly, over ℚ), and arbitrary inputs clamp to `[0,1]` resp. `[low,high]`. -/
theorem C9_val2pos_pos2val_inverse (low high f v : ℚ)
    (hlh : low < high) (h0 : 0 ≤ f) (h1 : f ≤ 1) :
    val2pos low (pos2val low f high) high = f ∧
    0 ≤ val2pos low v high ∧ val2pos low v high ≤ 1 ∧
    low ≤ pos2val low v high ∧ pos2val low v high ≤ high := by
  have hne : high - low ≠ 0 := sub_ne_zero.mpr (ne_of_gt hlh)
  have hpos : (0 : ℚ) ≤ high - low := le_of_lt (sub_pos.mpr hlh)
  have hc0 : (0 : ℚ) ≤ max 0 (min 1 v) := le_max_left _ _
  have hc1 : max 0 (min 1 v) ≤ 1 := max_le (by norm_num) (min_le_left _ _)
  refine ⟨?_, le_max_left _ _, max_le (by norm_num) (min_le_left _ _), ?_, ?_⟩
  · unfold val2pos pos2val
    rw [min_eq_right h1, max_eq_right h0]
    have hsub : low + f * (high - low) - low = f * (high - low) := by ring
    rw [hsub, mul_div_assoc, div_self hne, mul_one, min_eq_right h1, max_eq_right h0]
  · unfold pos2val
    nlinarith
  · unfold pos2val
    nlinarith

/-- Witness for C9 at `low = 0`, `high = 2`, `f = 1/2`, `v = 5`. -/
theorem C9_witness :
    val2pos 0 (pos2val 0 (mkRat 1 2) 2) 2 = mkRat 1 2 ∧
    0 ≤ val2pos 0 (5 : ℚ) 2 ∧ val2pos 0 (5 : ℚ) 2 ≤ 1 ∧
    0 ≤ pos2val 0 (5 : ℚ) 2 ∧ pos2val 0 (5 : ℚ) 2 ≤ 2 :=
  C9_val2pos_pos2val_inverse 0 2 (mkRat 1 2) 5 (by decide) (by decide) (by decide)

/-! ## C6 -/

/-- C6 counterexample: a fault event with the well-known communication
failure code `30055` is NOT stored in the active fault set (the source only
prints `WP COMM ERR`), while an ordinary nonzero code on the same path is
stored; the claim that `30055` is "stored the same way as any other nonzero
code" is therefore false. -/
theorem C6_counterexample :
    errUpdate [] ["x"] 30055 = [] ∧ (30055 : Int) ≠ 0 ∧
    errLookup (errUpdate [] ["x"] 30055) ("pump" :: ["x"]) = none ∧
    errLookup (errUpdate [] ["x"] 1) ("pump" :: ["x"]) = some 1 := by
  refine ⟨rfl, by norm_num, rfl, rfl⟩

/-- Helper: removing one key leaves lookups of other keys unchanged. -/
lemma errLookup_errRemove_ne (l : List (List String × Int)) (err q : List String)
    (hq : q ≠ err) :
    errLookup (errRemove l err) q = errLookup l q := by
  induction l with
  | nil => rfl
  | cons kv rest ih =>
      have hq2 : ¬(err = q) := Ne.symm hq
      by_cases hk : kv.1 = err
      · simp [errRemove, errLookup, hk, hq2, ih]
      · by_cases hkq : kv.1 = q
        · simp [errRemove, errLookup, hk, hkq, hq]
        · simp [errRemove, errLookup, hk, hkq, ih]

/-- Helper: after removing a key, looking it up yields `none`. -/
lemma errLookup_errRemove_self (l : List (List String × Int)) (err : List String) :
    errLookup (errRemove l err) err = none := by
  induction l with
  | nil => rfl
  | cons kv rest ih =>
      by_cases hk : kv.1 = err
      · simp [errRemove, hk, ih]
      · simp [errRemove, errLookup, hk, ih]

/-- C6 amended: `code == 0` removes the path from the fault set; a nonzero
code adds it under `P("pump") + path` — EXCEPT the communication-failure code
`30055` and events on the status path `:1`, which are logged but leave the
fault set unchanged; entries for other paths are never affected. -/
theorem C6_errmon_amended (errs : List (List String × Int)) (path : List String)
    (v : Int) :
    (v = 0 → errLookup (errUpdate errs path v) ("pump" :: path) = none) ∧
    (v ≠ 0 → v ≠ 30055 → path ≠ [":1"] →
      errLookup (errUpdate errs path v) ("pump" :: path) = some v) ∧
    (v = 30055 → errUpdate errs path v = errs) ∧
    (v ≠ 0 → path = [":1"] → errUpdate errs path v = errs) ∧
    (∀ q, q ≠ "pump" :: path →
      errLookup (errUpdate errs path v) q = errLookup errs q) := by
  refine ⟨?_, ?_, ?_, ?_, ?_⟩
  · intro hv
    subst hv
    simp [errUpdate, errLookup_errRemove_self]
  · intro hv hv2 hp
    simp [errUpdate, hv, hv2, hp, errLookup]
  · intro hv
    subst hv
    norm_num [errUpdate]
  · intro hv hp
    subst hp
    simp [errUpdate, hv]
  · intro q hq
    by_cases hv : v = 0
    · subst hv
      simp [errUpdate, errLookup_errRemove_ne _ _ _ hq]
    · by_cases h5 : v = 30055
      · subst h5
        simp [errUpdate]
      · by_cases hp : path = [":1"]
        · subst hp
          simp [errUpdate, hv]
        · have hq2 : ¬("pump" :: path = q) := Ne.symm hq
          simp [errUpdate, hv, h5, hp, errLookup, hq2,
            errLookup_errRemove_ne errs _ q hq]

/-- Witness for C6 amended, at `path = ["x"]`, `v = 7`, one pre-existing
other entry. -/
theorem C6_amended_witness :
    errLookup (errUpdate [(["pump", "y"], 3)] ["x"] 7) ("pump" :: ["x"]) = some 7 ∧
    errLookup (errUpdate [(["pump", "y"], 3)] ["x"] 7) ["pump", "y"] = some 3 :=
  ⟨(C6_errmon_amended [(["pump", "y"], 3)] ["x"] 7).2.1 (by norm_num) (by norm_num)
      (by simp),
    (C6_errmon_amended [(["pump", "y"], 3)] ["x"] 7).2.2.2.2 ["pump", "y"] (by simp)⟩

/-! ## C2 -/

/-- C2: in the running state, unless the iteration bails out through the
no-power stall branch (in which case the PID loops are never evaluated and
nothing is sent), the value handed to `set_load` is exactly
`min(loadLoop, bufferLoop, limitLoop)`, for every triple of loop outputs;
and the power fraction written on the wire is `set_load`'s translation of
that minimum. -/
theorem C2_load_is_min_of_three (cfg : Config) (s : Sensors) (pid : PidOut)
    (T : Temps) (tnp : Option ℚ) (tr : ℚ) :
    (runOperation cfg s pid T tnp tr).stall = true ∨
      ((runOperation cfg s pid T tnp tr).loadReq =
          some (min pid.load (min pid.buffer pid.limit)) ∧
        (runOperation cfg s pid T tnp tr).powerCmd =
          some (setLoadPower cfg (min pid.load (min pid.buffer pid.limit)))) := by
  rcases tnp with _ | t0 <;> unfold runOperation <;> dsimp only <;> split
  · exact Or.inr ⟨rfl, rfl⟩
  · exact Or.inr ⟨rfl, rfl⟩
  · split
    · exact Or.inl rfl
    · exact Or.inr ⟨rfl, rfl⟩
  · exact Or.inr ⟨rfl, rfl⟩

/-! ## C1 -/

/-- C1 counterexample: with the spec's own scenario (`t_out = 65 > max = 61`)
and all three load loops returning `1/2`, the running-state evaluation sends
`set_load(1/2)` — the load command is NOT forced to `0` (the wire power
command is `1/2` as well); only the pump PWM is forced to `1`. -/
theorem C1_counterexample :
    (iterStep cfg0
        { time := 1000, t_in := 55, t_out := 65, r_flow := 15, m_ice := false
          tb_water := 50, tb_heat := 50, tb_mid := 40, tb_low := 30, m_power := 1
          c_water := 48, c_heat := 40, cm_main := true, cm_heat := false
          errs := false }
        { load := mkRat 1 2, buffer := mkRat 1 2, limit := mkRat 1 2
          pump := mkRat 3 10, flow := mkRat 1 4 }
        { ls0 with
          orun := some Run.run
          run := Run.run
          cmMain := true
          heatOk := HeatOk.yes
          tLoad := some 999
          tRun := some 500
          lastPwm := some (mkRat 1 2)
          loadLast := some (mkRat 1 2) }).map
        (fun r => (r.eff.loads, r.eff.flows)) =
      Except.ok ([mkRat 1 2], [1]) ∧
    (65 : ℚ) > cfg0.adj_max ∧
    setLoadPower cfg0 (mkRat 1 2) = mkRat 1 2 ∧ mkRat 1 2 ≠ (0 : ℚ) := by
  refine ⟨rfl, by decide, by decide, by decide⟩

/-- C1 amended: in the running state, whenever the exchanger outlet
temperature exceeds `cfg.adj.max`, the pump-speed (flow PWM) command is
forced to `1` regardless of the pump loop's output, but the load command is
still the arbitrated `min` of the three load loops (it is not forced to 0);
the only branch that sends nothing is the no-power stall exit. -/
theorem C1_overtemp_amended (cfg : Config) (s : Sensors) (pid : PidOut)
    (T : Temps) (tnp : Option ℚ) (tr : ℚ)
    (hmax : s.t_out > cfg.adj_max)
    (hst : (runOperation cfg s pid T tnp tr).stall = false) :
    (runOperation cfg s pid T tnp tr).flowPwm = some 1 ∧
    (runOperation cfg s pid T tnp tr).loadReq =
      some (min pid.load (min pid.buffer pid.limit)) := by
  rcases tnp with _ | t0
  · by_cases h1 : s.m_power < cfg.misc_min_power <;>
      simp [runOperation, h1, hmax]
  · by_cases h1 : s.m_power < cfg.misc_min_power
    · by_cases h2 : s.time - t0 > 20
      · simp [runOperation, h1, h2] at hst
      · simp [runOperation, h1, h2, hmax]
    · simp [runOperation, h1, hmax]

/-- Witness for C1 amended at a concrete over-temperature input. -/
theorem C1_amended_witness :
    (runOperation cfg0
        { sens0 with t_out := 65, m_power := 1 }
        { load := mkRat 1 2, buffer := mkRat 2 5, limit := mkRat 3 5
          pump := mkRat 3 10, flow := mkRat 1 4 }
        (calcTemps cfg0 { sens0 with t_out := 65, m_power := 1 }) none 0).flowPwm =
      some 1 ∧
    (runOperation cfg0
        { sens0 with t_out := 65, m_power := 1 }
        { load := mkRat 1 2, buffer := mkRat 2 5, limit := mkRat 3 5
          pump := mkRat 3 10, flow := mkRat 1 4 }
        (calcTemps cfg0 { sens0 with t_out := 65, m_power := 1 }) none 0).loadReq =
      some (min (mkRat 1 2) (min (mkRat 2 5) (mkRat 3 5))) :=
  C1_overtemp_amended cfg0 _ _ _ none 0 (by decide) (by rfl)


/-! ## C4 -/

/-- C4 counterexample: in state `off` with the main switch on, no faults, no
forced-on flag, and the current buffer temperature 35 BELOW the computed
on-threshold 40 (`c_water = 38`, `t_low = 39`, `t_adj = 41`), the machine
moves to `wait_time` — while the claim says it stays `off` whenever the
temperature is below the threshold (the source's condition is
`t_cur < t_set_on`, not `t_cur > t_set_on`). -/
theorem C4_counterexample :
    (iterStep cfg0
        { time := 0, t_in := 30, t_out := 30, r_flow := 0, m_ice := false
          tb_water := 35, tb_heat := 35, tb_mid := 35, tb_low := 35, m_power := 0
          c_water := 38, c_heat := 30, cm_main := true, cm_heat := false
          errs := false }
        pid0
        { ls0 with orun := some Run.off, run := Run.off, cmMain := true }).map
        (fun r => r.st.run) =
      Except.ok Run.wait_time ∧
    (calcTemps cfg0
        { time := 0, t_in := 30, t_out := 30, r_flow := 0, m_ice := false
          tb_water := 35, tb_heat := 35, tb_mid := 35, tb_low := 35, m_power := 0
          c_water := 38, c_heat := 30, cm_main := true, cm_heat := false
          errs := false }).t_cur <
      (calcTemps cfg0
        { time := 0, t_in := 30, t_out := 30, r_flow := 0, m_ice := false
          tb_water := 35, tb_heat := 35, tb_mid := 35, tb_low := 35, m_power := 0
          c_water := 38, c_heat := 30, cm_main := true, cm_heat := false
          errs := false }).t_set_on := by
  constructor
  · norm_num [iterStep, checkTransition, redirectOff, inShutdownSet, entryActions,
      stateHandling, calcTemps, val2pos, pos2val, cfg0, ls0, Except.map]
  · norm_num [calcTemps, cfg0]

/-- C4 amended: in state `off` with the main switch on and no active faults
(and no ice pre-emption), the machine moves to `wait_time` exactly when the
forced-on flag is set or the current buffer temperature is BELOW the computed
on-threshold `t_set_on`; otherwise it stays `off`. -/
theorem C4_off_exit_amended (cfg : Config) (s : Sensors) (pid : PidOut)
    (ls : LoopState)
    (h1 : ls.run = Run.off) (h2 : ls.orun = some Run.off)
    (h3 : s.m_ice = false) (h4 : s.cm_main = true) (h5 : s.errs = false) :
    (iterStep cfg s pid ls).map (fun r => r.st.run) =
      Except.ok
        (if ls.forceOn = true ∨ (calcTemps cfg s).t_cur < (calcTemps cfg s).t_set_on
          then Run.wait_time else Run.off) := by
  by_cases hc : ls.forceOn = true ∨ (calcTemps cfg s).t_cur < (calcTemps cfg s).t_set_on <;>
    simp [iterStep, h1, h2, h3, h4, h5, hc, checkTransition, redirectOff, inShutdownSet,
      entryActions, stateHandling, Except.map]

/-- Witness for C4 amended: with the forced-on flag set the result is
`wait_time`. -/
theorem C4_amended_witness :
    (iterStep cfg0
        { sens0 with cm_main := true }
        pid0
        { ls0 with orun := some Run.off, run := Run.off, cmMain := true
                   forceOn := true }).map (fun r => r.st.run) =
      Except.ok Run.wait_time := by
  rw [C4_off_exit_amended cfg0 { sens0 with cm_main := true } pid0
    { ls0 with orun := some Run.off, run := Run.off, cmMain := true, forceOn := true }
    rfl rfl rfl rfl rfl]
  simp



/-! ## C5 -/

/-- Entering `ice` is always accepted by the transition-legality check. -/
lemma checkTransition_ice (o : Option Run) : checkTransition o Run.ice = true := by
  revert o
  decide

/-- The shutdown redirect never changes a requested `ice`. -/
lemma redirectOff_ice (o : Option Run) : redirectOff o Run.ice = Run.ice := by
  revert o
  decide

/-- C5: from the `ice` state a loop iteration never raises, the entered state
is `ice`, and the state entered by the NEXT iteration (after the shutdown
redirect) is only ever `ice` or `down` — never `run`; moreover, as soon as
the ice sensor clears, the next entered state is exactly `down` (also when
the main switch drops at the same time, via the `off → down` redirect). -/
theorem C5_ice_exits_only_to_down (cfg : Config) (s : Sensors) (pid : PidOut)
    (ls : LoopState) (h1 : ls.run = Run.ice) :
    (∃ r, iterStep cfg s pid ls = Except.ok r) ∧
    (∀ r, iterStep cfg s pid ls = Except.ok r →
      r.entered = Run.ice ∧
      redirectOff (some Run.ice) r.st.run ≠ Run.run ∧
      (redirectOff (some Run.ice) r.st.run = Run.ice ∨
        redirectOff (some Run.ice) r.st.run = Run.down) ∧
      (s.m_ice = false → redirectOff (some Run.ice) r.st.run = Run.down)) := by
  constructor
  · simp only [iterStep, h1, checkTransition_ice, redirectOff_ice, stateHandling,
      Bool.true_eq_false, if_false]
    repeat' split
    all_goals exact ⟨_, rfl⟩
  · intro r hr
    simp only [iterStep, h1, checkTransition_ice, redirectOff_ice, stateHandling,
      Bool.true_eq_false, if_false] at hr
    split at hr
    · -- ice pre-emption fires: stay in ice
      rename_i hcond
      cases hr
      refine ⟨rfl, by simp [redirectOff], Or.inl (by simp [redirectOff]), ?_⟩
      intro hm
      rw [hm] at hcond
      exact absurd hcond.1 (by simp)
    · split at hr
      · -- main switch / fault forces off, redirected to down next
        cases hr
        exact ⟨rfl, by simp [redirectOff, inShutdownSet],
          Or.inr (by simp [redirectOff, inShutdownSet]),
          fun _ => by simp [redirectOff, inShutdownSet]⟩
      · -- state handling for ice: case on the `cont` result
        split at hr
        · -- cont = some r2
          rename_i r2 heq
          by_cases hmi : s.m_ice = true
          · rw [if_neg (by simp [hmi])] at heq
            exact absurd heq (by simp)
          · rw [if_pos (by simp [hmi])] at heq
            simp only [Option.some.injEq] at heq
            cases heq
            cases hr
            exact ⟨rfl, by simp [redirectOff], Or.inr (by simp [redirectOff]),
              fun _ => by simp [redirectOff]⟩
        · -- cont = none: ice persists, falls through to heat control
          rename_i heq
          by_cases hmi : s.m_ice = true
          · rw [if_pos (by decide)] at hr
            cases hr
            refine ⟨rfl, by simp [redirectOff], Or.inl (by simp [redirectOff]), ?_⟩
            intro hm
            rw [hm] at hmi
            exact Bool.noConfusion hmi
          · rw [if_pos (by simp [hmi])] at heq
            exact absurd heq (by simp)


/-- Witness for C5: from `ice` with the sensor cleared, the next entered
state is `down`. -/
theorem C5_witness :
    (iterStep cfg0 { sens0 with cm_main := true } pid0
        { ls0 with orun := some Run.ice, run := Run.ice, cmMain := true }).map
        (fun r => redirectOff (some Run.ice) r.st.run) =
      Except.ok Run.down := by
  obtain ⟨r, hr⟩ :=
    (C5_ice_exits_only_to_down cfg0 { sens0 with cm_main := true } pid0
      { ls0 with orun := some Run.ice, run := Run.ice, cmMain := true } rfl).1
  have h2 :=
    (C5_ice_exits_only_to_down cfg0 { sens0 with cm_main := true } pid0
      { ls0 with orun := some Run.ice, run := Run.ice, cmMain := true } rfl).2 r hr
  rw [hr, Except.map, h2.2.2.2 rfl]

/-! ## C10 -/

/-- C10 counterexample: the machine is in `down` (entered from `run`) with a
large outlet-inlet delta (20 ≥ stop delta 3); the main switch drops, so the
iteration requests `off`, and since `down` is in the redirect's pass-through
set the next iteration enters `off` — even though the outlet-minus-inlet
delta never fell below the configured stop delta. -/
theorem C10_counterexample :
    (iterStep cfg0
        { time := 0, t_in := 20, t_out := 40, r_flow := 10, m_ice := false
          tb_water := 40, tb_heat := 40, tb_mid := 40, tb_low := 40, m_power := 1
          c_water := 48, c_heat := 40, cm_main := false, cm_heat := false
          errs := false }
        pid0
        { ls0 with orun := some Run.run, run := Run.down, cmMain := true }).map
        (fun r => redirectOff (some Run.down) r.st.run) =
      Except.ok Run.off ∧
    ¬((40 : ℚ) - 20 < cfg0.misc_stop_delta) := by
  constructor
  · rfl
  · norm_num [cfg0]

/-- C10 amended: (1) a requested `off` is redirected to `down` exactly when
the previous state is outside `{off, wait_time, wait_flow, wait_power,
down}`; (2) from the active states `flow`, `temp`, `run`, `ice` the next
entered state is never `off` (any requested `off` is re-targeted to `down`);
(3) in `down`, if neither ice pre-emption nor the main-switch/fault override
fires, the machine moves to `off` exactly when the outlet-minus-inlet
temperature difference is below the configured stop delta — but the
main-switch/fault override can force `off` from `down` without the delta
condition (the counterexample). -/
theorem C10_off_via_down_amended (cfg : Config) (s : Sensors) (pid : PidOut)
    (ls : LoopState) :
    (∀ orun, inShutdownSet orun = false → redirectOff orun Run.off = Run.down) ∧
    (∀ orun r2, inShutdownSet orun = true ∨ r2 ≠ Run.off → redirectOff orun r2 = r2) ∧
    (∀ e r2, (e = Run.flow ∨ e = Run.temp ∨ e = Run.run ∨ e = Run.ice) →
      redirectOff (some e) r2 ≠ Run.off) ∧
    (ls.run = Run.down → checkTransition ls.orun Run.down = true →
      s.m_ice = false →
      ¬((s.cm_main = false ∨ s.errs = true) ∧ ls.cmMain = true) →
      (iterStep cfg s pid ls).map (fun r => r.st.run) =
        Except.ok
          (if s.t_out - s.t_in < cfg.misc_stop_delta then Run.off else Run.down)) := by
  refine ⟨by decide, by decide, by decide, ?_⟩
  intro h1 hck h3 hmain
  by_cases hd : s.t_out - s.t_in < cfg.misc_stop_delta <;>
    simp [iterStep, h1, hck, h3, hmain, hd, redirectOff, stateHandling, Except.map]

/-- Witness for C10 amended: cooling done (delta 1 < 3), main switch on →
`down` exits to `off`. -/
theorem C10_amended_witness :
    (iterStep cfg0
        { time := 0, t_in := 29, t_out := 30, r_flow := 10, m_ice := false
          tb_water := 40, tb_heat := 40, tb_mid := 40, tb_low := 40, m_power := 1
          c_water := 48, c_heat := 40, cm_main := true, cm_heat := false
          errs := false }
        pid0
        { ls0 with orun := some Run.down, run := Run.down, cmMain := true }).map
        (fun r => r.st.run) =
      Except.ok Run.off := by
  rw [(C10_off_via_down_amended cfg0
      { time := 0, t_in := 29, t_out := 30, r_flow := 10, m_ice := false
        tb_water := 40, tb_heat := 40, tb_mid := 40, tb_low := 40, m_power := 1
        c_water := 48, c_heat := 40, cm_main := true, cm_heat := false
        errs := false }
      pid0
      { ls0 with orun := some Run.down, run := Run.down, cmMain := true }).2.2.2
    rfl (by decide) rfl (by decide)]
  norm_num [cfg0]



/-! ## C7 -/

/-- Characterization of `_kv`'s bookkeeping: after processing `msgs`, the
variable has been seen (`hasv`) iff some value message arrived, the
`miss` flag is set iff an `uptodate` marker arrived but no value yet, and
the variable has left `_want` iff both a value and an `uptodate` marker
arrived. -/
lemma kvFold_char (msgs : List Msg) :
    msgs.foldl kvStep { want := true, miss := false, hasv := false } =
      { want := !(msgs.any isValueMsg && msgs.any isUptodateMsg)
        miss := msgs.any isUptodateMsg && !msgs.any isValueMsg
        hasv := msgs.any isValueMsg } := by
  induction msgs using List.reverseRecOn with
  | nil => rfl
  | append_singleton l m ih =>
      rw [List.foldl_append, ih]
      cases hv : l.any isValueMsg <;> cases hu : l.any isUptodateMsg <;>
        cases m <;>
        simp [kvStep, isValueMsg, isUptodateMsg, List.any_append, hv, hu]

lemma kvWant_eq (msgs : List Msg) :
    kvWant msgs = !(msgs.any isValueMsg && msgs.any isUptodateMsg) := by
  rw [kvWant, kvFold_char]

lemma kvWant_iff (msgs : List Msg) :
    kvWant msgs = false ↔
      (msgs.any isValueMsg = true ∧ msgs.any isUptodateMsg = true) := by
  rw [kvWant_eq]
  cases hv : msgs.any isValueMsg <;> cases hu : msgs.any isUptodateMsg <;> simp

/-- C7: startup initialization succeeds iff every required quantity's
subscription delivered at least one value (and its `uptodate` marker); if
not, it fails with an error carrying exactly the names of the still-missing
quantities — in particular the error list is non-empty, so the program never
proceeds with unknown inputs. -/
theorem C7_init_barrier (feeds : List (String × List Msg)) :
    (runInitModel feeds = Except.ok () ↔
      ∀ f ∈ feeds, f.2.any isValueMsg = true ∧ f.2.any isUptodateMsg = true) ∧
    (∀ m, runInitModel feeds = Except.error m →
      m = (feeds.filter
          (fun f => !(f.2.any isValueMsg && f.2.any isUptodateMsg))).map
          (fun f => f.1) ∧
      m ≠ []) := by
  have hM : (feeds.filter (fun f => kvWant f.2)).map (fun f => f.1) =
      (feeds.filter
        (fun f => !(f.2.any isValueMsg && f.2.any isUptodateMsg))).map
        (fun f => f.1) := by
    have hfun : (fun f : String × List Msg => kvWant f.2) =
        (fun f : String × List Msg =>
          !(f.2.any isValueMsg && f.2.any isUptodateMsg)) := by
      funext f
      rw [kvWant_eq]
    rw [hfun]
  have hiff : (feeds.filter (fun f => kvWant f.2)).map (fun f => f.1) = [] ↔
      ∀ f ∈ feeds, f.2.any isValueMsg = true ∧ f.2.any isUptodateMsg = true := by
    rw [List.map_eq_nil_iff, List.filter_eq_nil_iff]
    constructor
    · intro h f hf
      have h2 := h f hf
      rw [Bool.not_eq_true, kvWant_iff] at h2
      exact h2
    · intro h f hf
      rw [Bool.not_eq_true, kvWant_iff]
      exact h f hf
  constructor
  · constructor
    · intro h
      rw [← hiff]
      by_contra hne
      simp [runInitModel, List.isEmpty_iff, hne] at h
    · intro h
      have hemp := hiff.mpr h
      simp [runInitModel, hemp]
  · intro m hm
    have hne : ¬((feeds.filter (fun f => kvWant f.2)).map (fun f => f.1) = []) := by
      intro hemp
      simp [runInitModel, hemp] at hm
    have hev : runInitModel feeds =
        Except.error ((feeds.filter (fun f => kvWant f.2)).map (fun f => f.1)) := by
      simp [runInitModel, List.isEmpty_iff, hne]
    rw [hev] at hm
    injection hm with hm
    rw [← hm]
    exact ⟨hM, hne⟩

/-- Witness for C7: quantity `a` got a value and its marker, quantity `b`
never got a value — the barrier fails naming exactly `b`. -/
theorem C7_witness :
    runInitModel [("a", [Msg.value 1, Msg.uptodate]), ("b", [Msg.uptodate])] =
      Except.error ["b"] ∧
    ["b"] =
      ([("a", [Msg.value 1, Msg.uptodate]), ("b", [Msg.uptodate])].filter
        (fun f => !(f.2.any isValueMsg && f.2.any isUptodateMsg))).map
        (fun f => f.1) ∧
    (["b"] : List String) ≠ [] := by
  have h1 : runInitModel [("a", [Msg.value 1, Msg.uptodate]), ("b", [Msg.uptodate])] =
      Except.error ["b"] := rfl
  exact ⟨h1,
    ((C7_init_barrier [("a", [Msg.value 1, Msg.uptodate]), ("b", [Msg.uptodate])]).2
      ["b"] h1).1,
    ((C7_init_barrier [("a", [Msg.value 1, Msg.uptodate]), ("b", [Msg.uptodate])]).2
      ["b"] h1).2⟩



/-! ## C8 -/

lemma hcFold_append (cfg : Config) (h0 : HeatOk) (l : List HCIn) (x : HCIn) :
    hcFold cfg h0 (l ++ [x]) = hcStep cfg (hcFold cfg h0 l) x := by
  simp [hcFold, List.foldl_append]

/-- When the heating condition fails and the state machine is not in `run`,
the hysteresis state drops to disabled in that same evaluation. -/
lemma hcStep_cond_false (cfg : Config) (x : HCIn) (h : HeatOk)
    (hc : hcCond x = false) (hrx : x.entered ≠ Run.run) :
    hcStep cfg h x = HeatOk.no := by
  unfold hcCond at hc
  unfold hcStep heatControl
  rw [if_pos hc]
  by_cases hno : h = HeatOk.no
  · subst hno
    rw [if_neg (by simp)]
  · rw [if_pos ⟨hrx, hno⟩]

/-- The hysteresis becomes enabled only from a pending timestamp whose age
exceeds the configured delay, with the condition holding in that cycle. -/
lemma hcStep_yes_from (cfg : Config) (x : HCIn) (h : HeatOk)
    (hy : hcStep cfg h x = HeatOk.yes) (hne : h ≠ HeatOk.yes) :
    hcCond x = true ∧
    ∃ t0, h = HeatOk.pending t0 ∧ x.time - t0 > cfg.heat_mode_delay := by
  unfold hcStep heatControl at hy
  by_cases hc : hcCond x = false
  · unfold hcCond at hc
    rw [if_pos hc] at hy
    split at hy
    · exact absurd hy (by simp)
    · exact absurd hy hne
  · have hc2 : hcCond x = true := by
      cases hcc : hcCond x
      · exact absurd hcc hc
      · rfl
    unfold hcCond at hc
    rw [if_neg hc] at hy
    refine ⟨hc2, ?_⟩
    cases h with
    | yes => exact absurd rfl hne
    | no => simp at hy
    | pending t1 =>
        dsimp only at hy
        by_cases hdl : x.time - t1 > cfg.heat_mode_delay
        · exact ⟨t1, rfl, hdl⟩
        · rw [if_neg hdl] at hy
          simp at hy

/-- A pending state survives an evaluation only if the condition holds (or
it was just created from disabled, stamped with the evaluation's time);
outside `run` a failing condition destroys it. -/
lemma hcStep_pending_from (cfg : Config) (x : HCIn) (h : HeatOk) (t0 : ℚ)
    (hp : hcStep cfg h x = HeatOk.pending t0) (hrx : x.entered ≠ Run.run) :
    (h = HeatOk.pending t0 ∧ hcCond x = true) ∨
    (h = HeatOk.no ∧ hcCond x = true ∧ t0 = x.time) := by
  by_cases hc : hcCond x = false
  · rw [hcStep_cond_false cfg x h hc hrx] at hp
    exact absurd hp (by simp)
  · have hc2 : hcCond x = true := by
      cases hcc : hcCond x
      · exact absurd hcc hc
      · rfl
    unfold hcCond at hc
    unfold hcStep heatControl at hp
    rw [if_neg hc] at hp
    cases h with
    | yes => simp at hp
    | no =>
        dsimp only at hp
        simp only [HeatOk.pending.injEq] at hp
        exact Or.inr ⟨rfl, hc2, hp.symm⟩
    | pending t1 =>
        dsimp only at hp
        by_cases hdl : x.time - t1 > cfg.heat_mode_delay
        · rw [if_pos hdl] at hp
          simp at hp
        · rw [if_neg hdl] at hp
          simp only [HeatOk.pending.injEq] at hp
          cases hp
          exact Or.inl ⟨rfl, hc2⟩

/-- Pending-state characterization over a trace that avoids the `run` state:
the pending stamp either comes from the initial state with the condition
holding ever since, or from a cycle in the trace that stamped it, with the
condition holding from that cycle on. -/
lemma hcFold_pending_char (cfg : Config) (l : List HCIn) (h0 : HeatOk) (t0 : ℚ)
    (hrun : ∀ x ∈ l, x.entered ≠ Run.run)
    (hp : hcFold cfg h0 l = HeatOk.pending t0) :
    (h0 = HeatOk.pending t0 ∧ ∀ y ∈ l, hcCond y = true) ∨
    (∃ l1 x l2, l = l1 ++ x :: l2 ∧ x.time = t0 ∧ hcCond x = true ∧
      ∀ y ∈ l2, hcCond y = true) := by
  induction l using List.reverseRecOn with
  | nil => exact Or.inl ⟨hp, by simp⟩
  | append_singleton l z ih =>
      rw [hcFold_append] at hp
      have hz : z.entered ≠ Run.run := hrun z (by simp)
      rcases hcStep_pending_from cfg z (hcFold cfg h0 l) t0 hp hz with
        ⟨hprev, hcz⟩ | ⟨hprev, hcz, ht⟩
      · rcases ih (fun x hx => hrun x (by simp [hx])) hprev with
          ⟨ha, hb⟩ | ⟨l1, x, l2, he, ht, hcx, hl2⟩
        · refine Or.inl ⟨ha, ?_⟩
          intro y hy
          rcases List.mem_append.mp hy with hy1 | hy2
          · exact hb y hy1
          · rw [List.mem_singleton.mp hy2]
            exact hcz
        · refine Or.inr ⟨l1, x, l2 ++ [z], by rw [he]; simp, ht, hcx, ?_⟩
          intro y hy
          rcases List.mem_append.mp hy with hy1 | hy2
          · exact hl2 y hy1
          · rw [List.mem_singleton.mp hy2]
            exact hcz
      · exact Or.inr ⟨l, z, [], by simp, ht.symm, hcz, by simp⟩

/-- Enabled-state characterization over a trace that avoids the `run` state:
if the heating path ends up enabled, then either it was enabled all along,
or there is a cycle that stamped the pending timer, the condition held at
every cycle from that stamp to the end of the trace, and some cycle since
the stamp was more than the configured delay after it. -/
lemma hcFold_yes_char (cfg : Config) (l : List HCIn) (h0 : HeatOk)
    (hrun : ∀ x ∈ l, x.entered ≠ Run.run)
    (hy : hcFold cfg h0 l = HeatOk.yes) :
    h0 = HeatOk.yes ∨
    (∃ t0, h0 = HeatOk.pending t0 ∧ (∀ y ∈ l, hcCond y = true) ∧
      ∃ z ∈ l, z.time - t0 > cfg.heat_mode_delay) ∨
    (∃ l1 x l2, l = l1 ++ x :: l2 ∧ hcCond x = true ∧
      (∀ y ∈ l2, hcCond y = true) ∧
      ∃ z, (z = x ∨ z ∈ l2) ∧ z.time - x.time > cfg.heat_mode_delay) := by
  induction l using List.reverseRecOn with
  | nil => exact Or.inl hy
  | append_singleton l z ih =>
      rw [hcFold_append] at hy
      have hz : z.entered ≠ Run.run := hrun z (by simp)
      have hrun2 : ∀ x ∈ l, x.entered ≠ Run.run := fun x hx => hrun x (by simp [hx])
      by_cases hprev : hcFold cfg h0 l = HeatOk.yes
      · have hcz : hcCond z = true := by
          cases hcc : hcCond z
          · rw [hcStep_cond_false cfg z (hcFold cfg h0 l) hcc hz] at hy
            exact absurd hy (by simp)
          · rfl
        rcases ih hrun2 hprev with
          h0yes | ⟨t0, hp0, hall, z2, hz2, hd⟩ | ⟨l1, x, l2, he, hcx, hl2, z2, hz2, hd⟩
        · exact Or.inl h0yes
        · refine Or.inr (Or.inl ⟨t0, hp0, ?_, z2, ?_, hd⟩)
          · intro y hy2
            rcases List.mem_append.mp hy2 with hy1 | hy1
            · exact hall y hy1
            · rw [List.mem_singleton.mp hy1]
              exact hcz
          · exact List.mem_append.mpr (Or.inl hz2)
        · refine Or.inr (Or.inr ⟨l1, x, l2 ++ [z], by rw [he]; simp, hcx, ?_, z2, ?_, hd⟩)
          · intro y hy2
            rcases List.mem_append.mp hy2 with hy1 | hy1
            · exact hl2 y hy1
            · rw [List.mem_singleton.mp hy1]
              exact hcz
          · rcases hz2 with hz2 | hz2
            · exact Or.inl hz2
            · exact Or.inr (List.mem_append.mpr (Or.inl hz2))
      · obtain ⟨hcz, t0, hpend, hd⟩ :=
          hcStep_yes_from cfg z (hcFold cfg h0 l) hy hprev
        rcases hcFold_pending_char cfg l h0 t0 hrun2 hpend with
          ⟨h0p, hall⟩ | ⟨l1, x, l2, he, ht, hcx, hl2⟩
        · refine Or.inr (Or.inl ⟨t0, h0p, ?_, z, by simp, hd⟩)
          intro y hy2
          rcases List.mem_append.mp hy2 with hy1 | hy1
          · exact hall y hy1
          · rw [List.mem_singleton.mp hy1]
            exact hcz
        · refine Or.inr (Or.inr ⟨l1, x, l2 ++ [z], by rw [he]; simp, hcx, ?_, z,
            Or.inr (List.mem_append.mpr (Or.inr (by simp))), by rw [ht]; exact hd⟩)
          intro y hy2
          rcases List.mem_append.mp hy2 with hy1 | hy1
          · exact hl2 y hy1
          · rw [List.mem_singleton.mp hy1]
            exact hcz

/-- C8 counterexample: while in the `run` state with the heating condition
failing (heat-buffer temperature 20 below the setpoint 30) and the heating
path currently enabled, the evaluation leaves it enabled and issues no
disable command — the heating path is NOT disabled on that cycle (the source
deliberately skips disabling while running). -/
theorem C8_counterexample :
    hcCond { entered := Run.run, heatOff := false, lastPwm := some 1
             tb_heat := 20, t_out := 50, c_heat := 30, time := 0 } = false ∧
    hcStep cfg0 HeatOk.yes
        { entered := Run.run, heatOff := false, lastPwm := some 1
          tb_heat := 20, t_out := 50, c_heat := 30, time := 0 } = HeatOk.yes ∧
    (heatControl cfg0 Run.run false (some 1) 20 50 30 0 HeatOk.yes).cmd = none := by
  exact ⟨by decide, by decide, by decide⟩

/-- C8 amended: (1) whenever the heating-enable condition fails and the
machine is NOT in the `run` state, the heating path is disabled on that same
cycle (while in `run`, disabling is deliberately skipped — the
counterexample); (2) the path becomes enabled only out of a pending
timestamp older than the configured delay, with the condition holding; (3)
over any run of consecutive evaluations outside the `run` state that ends
enabled, the condition held continuously from the cycle that stamped the
pending timer (or from the start) through the end, and some cycle since the
stamp was more than the delay after it. -/
theorem C8_heating_amended (cfg : Config) :
    (∀ x h, hcCond x = false → x.entered ≠ Run.run →
      hcStep cfg h x = HeatOk.no) ∧
    (∀ x h, hcStep cfg h x = HeatOk.yes → h ≠ HeatOk.yes →
      hcCond x = true ∧
      ∃ t0, h = HeatOk.pending t0 ∧ x.time - t0 > cfg.heat_mode_delay) ∧
    (∀ l h0, (∀ x ∈ l, x.entered ≠ Run.run) → hcFold cfg h0 l = HeatOk.yes →
      h0 = HeatOk.yes ∨
      (∃ t0, h0 = HeatOk.pending t0 ∧ (∀ y ∈ l, hcCond y = true) ∧
        ∃ z ∈ l, z.time - t0 > cfg.heat_mode_delay) ∨
      (∃ l1 x l2, l = l1 ++ x :: l2 ∧ hcCond x = true ∧
        (∀ y ∈ l2, hcCond y = true) ∧
        ∃ z, (z = x ∨ z ∈ l2) ∧ z.time - x.time > cfg.heat_mode_delay)) :=
  ⟨fun x h hc hrx => hcStep_cond_false cfg x h hc hrx,
    fun x h hy hne => hcStep_yes_from cfg x h hy hne,
    fun l h0 hrun hy => hcFold_yes_char cfg l h0 hrun hy⟩

/-- Witness for C8 amended: outside `run`, a failing condition disables the
enabled heating path on the same cycle. -/
theorem C8_amended_witness :
    hcStep cfg0 HeatOk.yes
        { entered := Run.down, heatOff := true, lastPwm := none
          tb_heat := 50, t_out := 50, c_heat := 30, time := 0 } = HeatOk.no :=
  (C8_heating_amended cfg0).1
    { entered := Run.down, heatOff := true, lastPwm := none
      tb_heat := 50, t_out := 50, c_heat := 30, time := 0 }
    HeatOk.yes (by decide) (by decide)


end Solvis
